import Mathlib

/-!
Verification of the object-based SavedModel loader (`load.py`).

The definitions below are a shallow embedding of the loader: the serialized
object graph data model, dotted-path resolution (`_convert_node_paths_to_ints`
/ `_find_node_child`), the filtered-node traversal
(`_retrieve_all_filtered_nodes`), node construction (`_load_nodes`), capture
resolution (`_get_tensor_from_node`), the distributed-context wrapper
(`_WrapperFunction._call_flat`), edge wiring (`_add_object_graph_edges`),
checkpoint restore (`_restore_checkpoint`), the constructor tail of
`Loader.__init__`, and the `load_internal` entry point.  Machine-level
details that the claims do not touch (protobuf decoding, TensorFlow graph
surgery) are represented by opaque-free symbolic values.
-/

namespace SavedModelLoad

/-- A child edge of a serialized node: `TrackableObjectGraph.TrackableObject.
ObjectReference` with fields `local_name` and `node_id`. -/
structure ChildEdge where
  local_name : String
  node_id : Nat
deriving DecidableEq

/-- A slot-variable reference carried by an optimizer-like serialized node
(`slot_variable_node_id`, `original_variable_node_id`, `slot_name`). -/
structure SlotVariableRef where
  slot_variable_node_id : Nat
  original_variable_node_id : Nat
  slot_name : String
deriving DecidableEq

/-- The tagged discriminator of a serialized node (`WhichOneof("kind")` over
the `SavedObject` proto's oneof). -/
inductive SavedObjectKind where
  | userObject
  | assetNode
  | functionNode
  | bareConcreteFunction
  | variableNode
  | constantNode
  | resourceNode
  | capturedTensor
deriving DecidableEq

/-- A serialized node of the object graph: its kind tag, its ordered child
edges and its slot-variable references. -/
structure SavedObject where
  kind : SavedObjectKind
  children : List ChildEdge
  slot_variables : List SlotVariableRef
deriving DecidableEq

/-- The serialized object graph: an ordered array of nodes, indexed by the
integer node id; id 0 is the root. -/
structure SavedObjectGraph where
  nodes : List SavedObject
deriving DecidableEq

/-- The synchronous failures the loader surfaces (each models one `raise` in
the source, with the payload the message interpolates). -/
inductive LoadError where
  | malformedPath (path : String)
  | unknownChild (path : String)
  | notTrackable (path : String)
  | missingDependency (fn_name : String)
  | captureResolution (descr : String)
  | unknownNodeKind
  | keyError (node_id : Nat)
  | dictKeyError (key : String)
  | v1Filters
  | tagMismatch
deriving DecidableEq

instance exceptDecEq {ε α : Type} [DecidableEq ε] [DecidableEq α] :
    DecidableEq (Except ε α)
  | .ok a, .ok b => decidable_of_iff (a = b) (by simp)
  | .ok _, .error _ => isFalse (by simp)
  | .error _, .ok _ => isFalse (by simp)
  | .error e, .error f => decidable_of_iff (e = f) (by simp)

/-- Splitting accumulator for `splitDot`: models Python `str.split(".")`
(empty segments are kept, a string with no dot yields one segment). -/
def splitDotAux : List Char → List Char → List String
  | [], acc => [String.mk acc.reverse]
  | c :: cs, acc =>
    if c = '.' then String.mk acc.reverse :: splitDotAux cs []
    else splitDotAux cs (c :: acc)

/-- `node_id.split(".")` of `_convert_node_paths_to_ints`. -/
def splitDot (s : String) : List String :=
  splitDotAux s.toList []

/-- `".".join(segments)`, used to build the path reported by
`_find_node_child`. -/
def joinDot : List String → String
  | [] => ""
  | [s] => s
  | s :: rest => s ++ "." ++ joinDot rest

/-- The children of node `node_id`: `self._proto.nodes[node_id].children`.
Out-of-range ids (excluded by the data-model invariant that every
`target_id` is valid) read as an empty child list. -/
def nodeChildren (g : SavedObjectGraph) (node_id : Nat) : List ChildEdge :=
  (g.nodes.getD node_id ⟨.userObject, [], []⟩).children

/-- `Loader._find_node_child`: the first child edge of `node_id` whose
`local_name` equals `child_name`, or the `unable to find node {path}`
failure. -/
def findNodeChild (g : SavedObjectGraph) (node_id : Nat) (child_name : String)
    (path : String) : Except LoadError Nat :=
  match (nodeChildren g node_id).find? (fun r => r.local_name == child_name) with
  | some r => .ok r.node_id
  | none => .error (.unknownChild path)

/-- The loop of `_convert_node_paths_to_ints` over `node_path[1:]`: `done`
holds the segments already consumed (the root token included), so the path
handed to `findNodeChild` at segment `nm` is `".".join(node_path[:n+2])`
= `joinDot (done ++ [nm])`. -/
def resolvePathAux (g : SavedObjectGraph) (cur : Nat) (done : List String) :
    List String → Except LoadError Nat
  | [] => .ok cur
  | nm :: rest =>
    match findNodeChild g cur nm (joinDot (done ++ [nm])) with
    | .ok next => resolvePathAux g next (done ++ [nm]) rest
    | .error e => .error e

/-- Resolution of one dotted path string: split on `.`, require the first
segment to be `"root"` (else the `first name must be root` failure), then
walk child edges from id 0. -/
def resolvePath (g : SavedObjectGraph) (path : String) : Except LoadError Nat :=
  match splitDot path with
  | [] => .error (.malformedPath path)
  | first :: rest =>
    if first = "root" then resolvePathAux g 0 ["root"] rest
    else .error (.malformedPath path)

/-- `Loader._convert_node_paths_to_ints`: resolve every filter path,
producing the `path_to_int` association in filter order; the first failing
path aborts the whole conversion. -/
def convertNodePathsToInts (g : SavedObjectGraph) :
    List String → Except LoadError (List (String × Nat))
  | [] => .ok []
  | p :: ps => do
    let i ← resolvePath g p
    let rest ← convertNodePathsToInts g ps
    .ok ((p, i) :: rest)

/-- A one-node graph (a root with no children), used as concrete input. -/
def rootOnlyGraph : SavedObjectGraph :=
  ⟨[⟨.userObject, [], []⟩]⟩

/-- Lookup in a string-keyed association list with Python-dict overwrite
semantics: entries are pushed at the front, so the most recent assignment to
a key wins. -/
def lookupS (m : List (String × Nat)) (k : String) : Option Nat :=
  (m.find? (fun e => e.1 == k)).map (fun e => e.2)

/-- The `while nodes_to_visit` loop of `Loader._retrieve_all_filtered_nodes`.
State: the growing `_node_path_to_id` dictionary, the `all_filtered_nodes`
visited set (insertion order kept) and the `nodes_to_visit` queue of dotted
paths.  `preNodes` maps a node id present in `self._loaded_nodes` to whether
that already-created object is a `base.Trackable` (a non-trackable one is
the `TypeError` of the source).  The side effect that registers
dependency-tracked data structures into `loaded_nodes` mutates only
`loaded_nodes`; its effect on node construction is covered by the `pre`
argument of `loadNodes` below.  The `fuel` argument bounds the loop (the
source terminates because a node's children are enqueued only on its first
visit); `none` means the fuel ran out. -/
def traverseAux (g : SavedObjectGraph) (preNodes : List (Nat × Bool)) :
    Nat → List (String × Nat) → List Nat → List String →
    Option (Except LoadError (List (String × Nat) × List Nat))
  | _, p2i, visited, [] => some (.ok (p2i, visited))
  | 0, _, _, _ :: _ => none
  | fuel + 1, p2i, visited, path :: queue =>
    match lookupS p2i path with
    | none => some (.error (.dictKeyError path))
    | some node_id =>
      if visited.contains node_id then
        traverseAux g preNodes fuel p2i visited queue
      else
        match preNodes.find? (fun e => e.1 == node_id) with
        | some (_, false) => some (.error (.notTrackable path))
        | _ =>
          let refs := nodeChildren g node_id
          traverseAux g preNodes fuel
            (refs.foldl (fun m r => (path ++ "." ++ r.local_name, r.node_id) :: m) p2i)
            (visited ++ [node_id])
            (queue ++ refs.map (fun r => path ++ "." ++ r.local_name))

/-- `Loader._retrieve_all_filtered_nodes`: `None` filters mean all nodes; a
filter list seeds the traversal, and a closure that visited the root id 0 is
collapsed to the "load all" sentinel `none`.  Returns the sentinel-or-id-set
together with the augmented `_node_path_to_id` dictionary. -/
def retrieveAllFilteredNodes (g : SavedObjectGraph) (preNodes : List (Nat × Bool))
    (fuel : Nat) (p2i0 : List (String × Nat)) :
    Option (List String) →
    Option (Except LoadError (Option (List Nat) × List (String × Nat)))
  | none => some (.ok (none, p2i0))
  | some filters =>
    match traverseAux g preNodes fuel p2i0 [] filters with
    | none => none
    | some (.error e) => some (.error e)
    | some (.ok (p2i, visited)) =>
      if visited.contains 0 then some (.ok (none, p2i))
      else some (.ok (some visited, p2i))

/-- `Loader._iter_all_nodes`: with the "load all" sentinel, enumerate the
whole serialized node array (graph-reachable or not); with an id set,
iterate exactly those ids. -/
def iterAllNodes (g : SavedObjectGraph) :
    Option (List Nat) → List (Nat × SavedObject)
  | none => g.nodes.enum
  | some filtered => filtered.map (fun i => (i, g.nodes.getD i ⟨.userObject, [], []⟩))

/-- A runtime object constructed (or pre-supplied) during a load: `tok` is
the allocation token standing for Python object identity — the loader hands
out a fresh token per construction, so two equal tokens name the very same
object. -/
structure LoadedObj where
  tok : Nat
deriving DecidableEq

/-- One construction step of `_load_nodes`, in program order: `recreate` is a
first-pass `self._recreate(proto, node_id)`, `addSlot` is a second-pass
`optimizer_object.add_slot(var=..., slot_name=...)` (recording the slot id,
the `original_variable_node_id` and the optimizer's node id), `dummyRoot` is
the final `_recreate_base_user_object()` for a missing id 0. -/
inductive BuildEvent where
  | recreate (node_id : Nat) (tok : Nat)
  | addSlot (slot_id orig_id opt_id : Nat) (tok : Nat)
  | dummyRoot (tok : Nat)
deriving DecidableEq

/-- Lookup in the id-keyed `nodes` dictionary (front entry wins, matching
Python dict overwrite). -/
def lookupN (m : List (Nat × LoadedObj)) (k : Nat) : Option LoadedObj :=
  (m.find? (fun e => e.1 == k)).map (fun e => e.2)

/-- The dictionary/fresh-token/trace state threaded through `_load_nodes`. -/
structure BState where
  nodes : List (Nat × LoadedObj)
  fresh : Nat
  trace : List BuildEvent
deriving DecidableEq

/-- Construct a fresh object for `node_id` (one Python object allocation):
bind it in `nodes`, bump the token counter, and append the build event. -/
def bindFresh (st : BState) (node_id : Nat) (ev : Nat → BuildEvent) : BState :=
  { nodes := (node_id, ⟨st.fresh⟩) :: st.nodes
    fresh := st.fresh + 1
    trace := st.trace ++ [ev st.fresh] }

/-- `slot_variable_node_ids` of `_load_nodes`: every
`slot_variable_proto.slot_variable_node_id` over the iterated protos. -/
def slotVariableNodeIds (iter : List (Nat × SavedObject)) : List Nat :=
  iter.flatMap (fun e => e.2.slot_variables.map (fun r => r.slot_variable_node_id))

/-- First pass of `_load_nodes`: re-create everything except slot variables
and already-present (pre-supplied) nodes. -/
def loadPass1 (slotIds : List Nat) : List (Nat × SavedObject) → BState → BState
  | [], st => st
  | (node_id, _) :: rest, st =>
    if slotIds.contains node_id || (lookupN st.nodes node_id).isSome then
      loadPass1 slotIds rest st
    else
      loadPass1 slotIds rest (bindFresh st node_id (fun t => .recreate node_id t))

/-- The inner loop of the second pass: for each `slot_variable_proto` of the
optimizer-like node `opt_id`, look up the optimized variable
(`nodes[original_variable_node_id]`, a Python `KeyError` when absent) and
construct the slot variable through `optimizer_object.add_slot`. -/
def addSlotVariables (opt_id : Nat) :
    List SlotVariableRef → BState → Except LoadError BState
  | [], st => .ok st
  | r :: rs, st =>
    match lookupN st.nodes r.original_variable_node_id with
    | none => .error (.keyError r.original_variable_node_id)
    | some _ =>
      addSlotVariables opt_id rs
        (bindFresh st r.slot_variable_node_id
          (fun t => .addSlot r.slot_variable_node_id r.original_variable_node_id opt_id t))

/-- Second pass of `_load_nodes`: `optimizer_object = nodes[node_id]` (a
`KeyError` when absent), then the slot variables of that proto. -/
def loadPass2 : List (Nat × SavedObject) → BState → Except LoadError BState
  | [], st => .ok st
  | (node_id, proto) :: rest, st =>
    match lookupN st.nodes node_id with
    | none => .error (.keyError node_id)
    | some _ => do
      let st' ← addSlotVariables node_id proto.slot_variables st
      loadPass2 rest st'

/-- `Loader._load_nodes`: the two construction passes, the dummy-root
fallback for a missing id 0, and the final `self._nodes` list
`[nodes.get(i) for i in range(len(self._proto.nodes))]`.  `pre` is the
pre-supplied `loaded_nodes` dictionary, `fresh0` the first unused token. -/
def loadNodes (g : SavedObjectGraph) (iter : List (Nat × SavedObject))
    (pre : List (Nat × LoadedObj)) (fresh0 : Nat) :
    Except LoadError (List (Option LoadedObj) × BState) := do
  let slotIds := slotVariableNodeIds iter
  let st1 := loadPass1 slotIds iter ⟨pre, fresh0, []⟩
  let st2 ← loadPass2 iter st1
  let st3 := if (lookupN st2.nodes 0).isSome then st2
             else bindFresh st2 0 (fun t => .dummyRoot t)
  .ok ((List.range g.nodes.length).map (fun i => lookupN st3.nodes i), st3)

/-- `Loader.get` on a string path: `self._nodes[self._node_path_to_id[path]]`
(an unknown path or an out-of-range id yields `none`). -/
def loaderGet (p2i : List (String × Nat)) (nodesList : List (Option LoadedObj))
    (path : String) : Option LoadedObj :=
  (lookupS p2i path).bind (fun i => nodesList.getD i none)

/-- The partial-load pipeline behind `load_partial`/`load_internal` with a
filter list: `_convert_node_paths_to_ints`, `_retrieve_all_filtered_nodes`,
`_load_nodes` over `_iter_all_nodes`, and the final
`{path: loader.get(path) for path in filters}` ingredients (the augmented
path dictionary and the `self._nodes` array).  `none` means the traversal
fuel ran out. -/
def loadPartialModel (g : SavedObjectGraph) (filters : List String)
    (preNodes : List (Nat × Bool)) (pre : List (Nat × LoadedObj))
    (fresh0 fuel : Nat) :
    Option (Except LoadError
      (List (String × Nat) × List (Option LoadedObj) × BState)) :=
  match convertNodePathsToInts g filters with
  | .error e => some (.error e)
  | .ok p2i0 =>
    match retrieveAllFilteredNodes g preNodes fuel p2i0 (some filters) with
    | none => none
    | some (.error e) => some (.error e)
    | some (.ok (filtered, p2i)) =>
      match loadNodes g (iterAllNodes g filtered) pre fresh0 with
      | .error e => some (.error e)
      | .ok (nodesList, st) => some (.ok (p2i, nodesList, st))

/-- The runtime value kinds `_get_tensor_from_node` dispatches on, in the
order the source tests them: `distribute_utils.is_distributed_variable`,
`resource_variable_ops.is_resource_variable`, `tracking.Asset`,
`tensor_util.is_tf_type`, `tracking.CapturableResource`, anything else.
For a capturable resource, `initHandle` is the handle its `resource_handle`
property yields by running the object's initialization action. -/
inductive RTObject where
  | distributedVariable (handle : Nat)
  | resourceVariable (handle : Nat)
  | assetObj (path : String)
  | tensorValue (v : Nat)
  | capturableResource (initHandle : Nat)
  | otherObj (descr : String)
deriving DecidableEq

/-- The concrete value a bound input resolves to. -/
inductive CapturedValue where
  | objValue (o : RTObject)
  | handleValue (h : Nat)
  | pathValue (p : String)
deriving DecidableEq

/-- `Loader._get_tensor_from_node`: first the filtered-load missing-node
check (`self._node_filters is not None and self._nodes[node_id] is None`),
then the kind dispatch; an unrecognized kind is the `Can't convert node`
failure. -/
def getTensorFromNode (node_filters : Option (List String))
    (nodes : List (Option RTObject)) (node_id : Nat) (fn_name : String) :
    Except LoadError CapturedValue :=
  if node_filters.isSome ∧ nodes.getD node_id none = none then
    .error (.missingDependency fn_name)
  else
    match nodes.getD node_id none with
    | some (.distributedVariable h) => .ok (.objValue (.distributedVariable h))
    | some (.resourceVariable h) => .ok (.handleValue h)
    | some (.assetObj p) => .ok (.pathValue p)
    | some (.tensorValue v) => .ok (.objValue (.tensorValue v))
    | some (.capturableResource h) => .ok (.handleValue h)
    | some (.otherObj d) => .error (.captureResolution d)
    | none => .error (.captureResolution "NoneType")

/-- A captured input of a restored concrete function: a distributed variable
(carrying its per-replica handle) or an ordinary non-distributed value. -/
inductive CapturedInput where
  | distributedVariable (handle : Nat)
  | ordinaryValue (v : Nat)
deriving DecidableEq

/-- The execution context observed at one invocation:
`ds_context.get_replica_context() is not None` and
`values_util.is_saving_non_distributed()`. -/
structure ExecContext where
  inReplicaContext : Bool
  savingNonDistributed : Bool
deriving DecidableEq

/-- What a captured input resolves to at call time.  `unusedPlaceholder`
carries the condition of the guarding `Assert`. -/
inductive ResolvedCapture where
  | handleOf (h : Nat)
  | itself (v : Nat)
  | unusedPlaceholder (assertCond : Bool)
deriving DecidableEq

/-- `_unused_handle()`: a resource placeholder under a control dependency on
`Assert(placeholder_with_default(False, shape=()), [msg])` — an assertion
whose condition is the constant False, so any accidental execution fails
loudly. -/
def unusedHandle : ResolvedCapture := .unusedPlaceholder false

/-- `get_handle` of `_WrapperFunction._call_flat`: a distributed variable
resolves to its (per-replica) handle, anything else to itself. -/
def getHandle : CapturedInput → ResolvedCapture
  | .distributedVariable h => .handleOf h
  | .ordinaryValue v => .itself v

/-- `get_unused_handle` of `_WrapperFunction._call_flat`: a distributed
variable resolves to the inert placeholder, anything else to itself. -/
def getUnusedHandle : CapturedInput → ResolvedCapture
  | .distributedVariable _ => unusedHandle
  | .ordinaryValue v => .itself v

/-- `_WrapperFunction._call_flat`'s capture resolution.  The function takes
the execution context as an argument precisely because the source
re-evaluates `ds_context.get_replica_context()` /
`values_util.is_saving_non_distributed()` inside `_call_flat` on every
invocation — nothing is cached across calls. -/
def callFlatCaptures (ctx : ExecContext) (captured_inputs : List CapturedInput) :
    List ResolvedCapture :=
  if ctx.inReplicaContext || ctx.savingNonDistributed then
    captured_inputs.map getHandle
  else
    captured_inputs.map getUnusedHandle

/-- A Python object as the edge wirer sees it: its identity and its class
(`type(obj)`). -/
structure PyObject where
  obj_id : Nat
  type_id : Nat
deriving DecidableEq

/-- Class-level state: the classes that define `__call__`.  Python's
`callable(obj)` is a lookup on `type(obj)`, so callability is a property of
the class shared by all its instances. -/
structure TypeState where
  hasCallAttr : List Nat
deriving DecidableEq

/-- `callable(obj)`. -/
def isCallable (ts : TypeState) (o : PyObject) : Bool :=
  ts.hasCallAttr.contains o.type_id

/-- One attribute write performed by a node setter (`setter(obj, name,
child)`). -/
structure AttrWrite where
  obj_id : Nat
  name : String
  child_id : Nat
deriving DecidableEq

/-- `Loader._add_object_graph_edges` for one object: invoke the setter for
every child edge in order and, for a `"__call__"` edge on an object that is
not already callable, attach `_call_attribute` to `type(obj)` — the class,
not the instance. -/
def addObjectGraphEdges (obj : PyObject) :
    List ChildEdge → TypeState → List AttrWrite → TypeState × List AttrWrite
  | [], ts, ws => (ts, ws)
  | r :: rest, ts, ws =>
    let ws' := ws ++ [⟨obj.obj_id, r.local_name, r.node_id⟩]
    if r.local_name == "__call__" && !(isCallable ts obj) then
      addObjectGraphEdges obj rest ⟨obj.type_id :: ts.hasCallAttr⟩ ws'
    else
      addObjectGraphEdges obj rest ts ws'

/-- What the checkpoint-matching machinery reports after `saver.restore`:
how many constructed trackables found no persisted entry, how many persisted
entries found no constructed object, and how many non-trivial restorations
happened. -/
structure CheckpointLoadStatus where
  unmatchedObjects : Nat
  unmatchedEntries : Nat
  nontrivialMatches : Nat
  partialExpected : Bool
deriving DecidableEq

/-- The failures `_restore_checkpoint` can surface through the load status
assertions. -/
inductive RestoreError where
  | noMatchError
  | unmatchedObjectsError
deriving DecidableEq

/-- Modelled from the spec: `expect_partial()` (implemented in
`tracking/util.py`, outside this repository's files) marks the status so
unmatched persisted entries do not warn; it fails nothing by itself. -/
def expectPartialStatus (st : CheckpointLoadStatus) : CheckpointLoadStatus :=
  { st with partialExpected := true }

/-- Modelled from the spec: `assert_nontrivial_match()` (implemented in
`tracking/util.py`, outside this repository's files) "fails with
`NoMatchError` if zero non-trivial matches occurred". -/
def assertNontrivialMatch (st : CheckpointLoadStatus) :
    Except RestoreError CheckpointLoadStatus :=
  if st.nontrivialMatches = 0 then .error .noMatchError else .ok st

/-- Modelled from the spec: `assert_existing_objects_matched()` (implemented
in `tracking/util.py`, outside this repository's files) "fails with
`UnmatchedObjectsError` if any constructed trackable object lacks a
corresponding persisted entry, or vice versa". -/
def assertExistingObjectsMatched (st : CheckpointLoadStatus) :
    Except RestoreError CheckpointLoadStatus :=
  if st.unmatchedObjects ≠ 0 ∨ st.unmatchedEntries ≠ 0 then
    .error .unmatchedObjectsError
  else .ok st

/-- The mode selection of `Loader._restore_checkpoint` (lines 471-477):
`allow_partial_checkpoint` chooses `expect_partial()` plus
`assert_nontrivial_match()`, otherwise `assert_existing_objects_matched()`
runs on the plain status. -/
def restoreCheckpoint (allowPartialCheckpoint : Bool) (st : CheckpointLoadStatus) :
    Except RestoreError CheckpointLoadStatus :=
  if allowPartialCheckpoint then assertNontrivialMatch (expectPartialStatus st)
  else assertExistingObjectsMatched st

/-- One meta graph of a SavedModel proto: whether it has the
`object_graph_def` field, and its recorded tag set. -/
structure MetaGraphDef where
  hasObjectGraph : Bool
  tags : List String
deriving DecidableEq

/-- The parsed SavedModel proto. -/
structure SavedModelProto where
  metaGraphs : List MetaGraphDef
deriving DecidableEq

/-- Python `set(a) == set(b)` over tag lists. -/
def listSetEq (a b : List String) : Bool :=
  a.all (fun x => b.contains x) && b.all (fun x => a.contains x)

/-- What `load_internal` returns: the V2 object-graph path yields a mapping
whose keys are the filter paths (or the single key `root`), the V1 fallback
yields the `load_v1_in_v2` root. -/
inductive LoadResult where
  | v2Loaded (mappingKeys : List String)
  | v1Loaded
deriving DecidableEq

/-- `load_internal`'s dispatch: the V2 path runs only when there is exactly
one meta graph and it has an object graph (after the optional tag check);
otherwise the V1 fallback first rejects any non-empty `filters` — before any
result is produced. -/
def loadInternal (proto : SavedModelProto) (tags : Option (List String))
    (filters : List String) : Except LoadError LoadResult :=
  let mg := proto.metaGraphs.headD ⟨false, []⟩
  if proto.metaGraphs.length = 1 ∧ mg.hasObjectGraph = true then
    if tags.isSome ∧ listSetEq (tags.getD []) mg.tags = false then
      .error .tagMismatch
    else
      .ok (.v2Loaded (if filters ≠ [] then filters else ["root"]))
  else
    if filters ≠ [] then .error .v1Filters
    else .ok .v1Loaded

/-- The observable steps of the constructor tail of `Loader.__init__`. -/
inductive LoaderInitEvent where
  | restoreCheckpointEvent
  | runInitOp (node_id : Nat) (op : Nat)
  | addToTableInitializers (op : Nat)
deriving DecidableEq

/-- The tail of `Loader.__init__` (lines 164-170): unless the save options
skip the checkpoint, restore it, then for every loaded node that is a
`tracking.CapturableResource` run its initialization action
(`node._initialize()`) and, when not executing eagerly, add the resulting
op to the `GraphKeys.TABLE_INITIALIZERS` collection — all before the
constructor (and hence the load entry point) returns. -/
def loaderInitTail (skipCheckpoint eager : Bool) (nodes : List (Option RTObject)) :
    List LoaderInitEvent :=
  if skipCheckpoint then []
  else
    .restoreCheckpointEvent ::
      nodes.enum.flatMap (fun e =>
        match e.2 with
        | some (.capturableResource op) =>
          .runInitOp e.1 op :: (if eager then [] else [.addToTableInitializers op])
        | _ => [])

/-- The ops accumulated in the `TABLE_INITIALIZERS` collection by a run. -/
def tableInitializerOps (evs : List LoaderInitEvent) : List Nat :=
  evs.filterMap (fun e =>
    match e with
    | .addToTableInitializers op => some op
    | _ => none)

/-- A graph with a cycle through the root and a node unreachable from it:
0 (root) --a--> 1, 1 --b--> 0, and 2 stands alone. -/
def cycleGraph : SavedObjectGraph :=
  ⟨[⟨.userObject, [⟨"a", 1⟩], []⟩,
    ⟨.userObject, [⟨"b", 0⟩], []⟩,
    ⟨.variableNode, [], []⟩]⟩

/-- A root whose two children `a` and `b` are the same node 1. -/
def sharedTargetGraph : SavedObjectGraph :=
  ⟨[⟨.userObject, [⟨"a", 1⟩, ⟨"b", 1⟩], []⟩,
    ⟨.variableNode, [], []⟩]⟩

/-- A root with an optimizer-like node 1 whose slot-variable reference
attaches slot node 3 to variable node 2. -/
def optimizerGraph : SavedObjectGraph :=
  ⟨[⟨.userObject, [⟨"opt", 1⟩, ⟨"v", 2⟩], []⟩,
    ⟨.userObject, [], [⟨3, 2, "momentum"⟩]⟩,
    ⟨.variableNode, [], []⟩,
    ⟨.variableNode, [], []⟩]⟩

/-- Replaying a build event onto the id-keyed dictionary. -/
def applyEvent (m : List (Nat × LoadedObj)) : BuildEvent → List (Nat × LoadedObj)
  | .recreate i t => (i, ⟨t⟩) :: m
  | .addSlot s _ _ t => (s, ⟨t⟩) :: m
  | .dummyRoot t => (0, ⟨t⟩) :: m

/-- Replaying a build trace over the pre-supplied dictionary. -/
def replayA (pre : List (Nat × LoadedObj)) : List BuildEvent → List (Nat × LoadedObj)
  | [] => pre
  | e :: es => replayA (applyEvent pre e) es

/-- Whether a build event constructs (binds) node id `j`. -/
def constructsId : BuildEvent → Nat → Bool
  | .recreate i _, j => i == j
  | .addSlot s _ _ _, j => s == j
  | .dummyRoot _, j => 0 == j

/-- Every token reachable by lookup is below the fresh counter. -/
def TokBound (m : List (Nat × LoadedObj)) (fresh : Nat) : Prop :=
  ∀ i o, lookupN m i = some o → o.tok < fresh

/-- Lookup results with equal tokens come from the same node id: at most one
object per id. -/
def TokInj (m : List (Nat × LoadedObj)) : Prop :=
  ∀ i j o p, lookupN m i = some o → lookupN m j = some p → o.tok = p.tok → i = j

/-- At every `add_slot` construction in the trace, both the optimized
variable and the optimizer-like object are already present (pre-supplied or
bound by an earlier event). -/
def GoodTrace (pre : List (Nat × LoadedObj)) (tr : List BuildEvent) : Prop :=
  ∀ t1 s orig opt tok t2, tr = t1 ++ BuildEvent.addSlot s orig opt tok :: t2 →
    (lookupN (replayA pre t1) orig).isSome ∧ (lookupN (replayA pre t1) opt).isSome

/-- The state dictionary is exactly the replay of the trace over `pre`. -/
def Consistent (pre : List (Nat × LoadedObj)) (st : BState) : Prop :=
  st.nodes = replayA pre st.trace

theorem lookupN_cons (k : Nat) (v : LoadedObj) (m : List (Nat × LoadedObj)) (i : Nat) :
    lookupN ((k, v) :: m) i = if k = i then some v else lookupN m i := by
  by_cases h : k = i <;> simp [lookupN, List.find?_cons, h]

theorem tokInv_bindFresh (st : BState) (nid : Nat) (ev : Nat → BuildEvent)
    (hB : TokBound st.nodes st.fresh) (hI : TokInj st.nodes) :
    TokBound (bindFresh st nid ev).nodes (bindFresh st nid ev).fresh ∧
    TokInj (bindFresh st nid ev).nodes := by
  constructor
  · intro i o hi
    simp only [bindFresh, lookupN_cons] at hi ⊢
    by_cases h : nid = i
    · simp [h] at hi
      simp [← hi]
    · simp [h] at hi
      exact Nat.lt_succ_of_lt (hB i o hi)
  · intro i j o p hi hj htok
    simp only [bindFresh, lookupN_cons] at hi hj
    by_cases h1 : nid = i
    · subst h1
      simp at hi
      by_cases h2 : nid = j
      · exact h2
      · simp only [if_neg h2] at hj
        have hb := hB j p hj
        rw [← hi] at htok
        simp at htok
        omega
    · simp only [if_neg h1] at hi
      by_cases h2 : nid = j
      · subst h2
        simp at hj
        have hb := hB i o hi
        rw [← hj] at htok
        simp at htok
        omega
      · simp only [if_neg h2] at hj
        exact hI i j o p hi hj htok

theorem replayA_append (pre : List (Nat × LoadedObj)) (t1 t2 : List BuildEvent) :
    replayA pre (t1 ++ t2) = replayA (replayA pre t1) t2 := by
  induction t1 generalizing pre with
  | nil => simp [replayA]
  | cons e es ih => simp [replayA, ih]

theorem lookupN_cons_isSome {k : Nat} {v : LoadedObj} {m : List (Nat × LoadedObj)} {x : Nat}
    (h : (lookupN ((k, v) :: m) x).isSome) : k = x ∨ (lookupN m x).isSome := by
  rw [lookupN_cons] at h
  by_cases hk : k = x
  · exact .inl hk
  · rw [if_neg hk] at h
    exact .inr h

/-- A node id present after replaying a trace was pre-supplied or was bound
by some event of the trace. -/
theorem lookupN_replayA {pre : List (Nat × LoadedObj)} {t : List BuildEvent} {x : Nat}
    (h : (lookupN (replayA pre t) x).isSome) :
    (lookupN pre x).isSome ∨ ∃ e ∈ t, constructsId e x = true := by
  induction t generalizing pre with
  | nil => exact .inl h
  | cons e es ih =>
    rcases @ih (applyEvent pre e) h with h1 | ⟨e', he', hc⟩
    · cases e with
      | recreate i t =>
        rcases lookupN_cons_isSome h1 with hk | hm
        · exact .inr ⟨.recreate i t, List.mem_cons_self _ _, by simp [constructsId, hk]⟩
        · exact .inl hm
      | addSlot s orig opt t =>
        rcases lookupN_cons_isSome h1 with hk | hm
        · exact .inr ⟨.addSlot s orig opt t, List.mem_cons_self _ _, by simp [constructsId, hk]⟩
        · exact .inl hm
      | dummyRoot t =>
        rcases lookupN_cons_isSome h1 with hk | hm
        · exact .inr ⟨.dummyRoot t, List.mem_cons_self _ _, by simp [constructsId, hk]⟩
        · exact .inl hm
    · exact .inr ⟨e', List.mem_cons_of_mem _ he', hc⟩

theorem append_eq_append_cons_cases {α : Type} {l Mid t1 t2 : List α} {e : α}
    (h : l ++ Mid = t1 ++ e :: t2) :
    (∃ t2', l = t1 ++ e :: t2') ∨ e ∈ Mid := by
  rcases List.append_eq_append_iff.mp h with ⟨a', _, hmid⟩ | ⟨c', hl, hrest⟩
  · exact .inr (hmid ▸ List.mem_append_right a' (List.mem_cons_self _ _))
  · cases c' with
    | nil =>
      simp at hrest
      exact .inr (hrest ▸ List.mem_cons_self _ _)
    | cons x c'' =>
      have hx : e = x ∧ t2 = c'' ++ Mid := by
        have := hrest
        simp at this
        exact this
      exact .inl ⟨c'', by rw [hl, hx.1]⟩

theorem append_singleton_eq_append_cons {α : Type} {l t1 t2 : List α} {e0 e : α}
    (h : l ++ [e0] = t1 ++ e :: t2) :
    (∃ t2', l = t1 ++ e :: t2') ∨ (t1 = l ∧ e = e0 ∧ t2 = []) := by
  rcases List.append_eq_append_iff.mp h with ⟨a', ht1, hsing⟩ | ⟨c', hl, hrest⟩
  · cases a' with
    | nil =>
      simp at hsing ht1
      exact .inr ⟨ht1, hsing.1.symm, hsing.2⟩
    | cons x xs =>
      simp at hsing
  · cases c' with
    | nil =>
      simp at hrest hl
      exact .inr ⟨hl.symm, hrest.1, hrest.2⟩
    | cons x c'' =>
      simp at hrest
      exact .inl ⟨c'', by rw [hl, hrest.1]⟩

theorem goodTrace_append {pre : List (Nat × LoadedObj)} {tr Mid : List BuildEvent}
    (hg : GoodTrace pre tr)
    (hMid : ∀ s orig opt tok, BuildEvent.addSlot s orig opt tok ∉ Mid) :
    GoodTrace pre (tr ++ Mid) := by
  intro t1 s orig opt tok t2 heq
  rcases append_eq_append_cons_cases heq with ⟨t2', hl⟩ | hmem
  · exact hg t1 s orig opt tok t2' hl
  · exact absurd hmem (hMid s orig opt tok)

theorem goodTrace_snoc_addSlot {pre : List (Nat × LoadedObj)} {tr : List BuildEvent}
    {s orig opt tok : Nat}
    (hg : GoodTrace pre tr)
    (ho : (lookupN (replayA pre tr) orig).isSome)
    (hp : (lookupN (replayA pre tr) opt).isSome) :
    GoodTrace pre (tr ++ [BuildEvent.addSlot s orig opt tok]) := by
  intro t1 s' orig' opt' tok' t2 heq
  rcases append_singleton_eq_append_cons heq with ⟨t2', hl⟩ | ⟨ht1, he, -⟩
  · exact hg t1 s' orig' opt' tok' t2' hl
  · cases he
    exact ht1 ▸ ⟨ho, hp⟩

theorem consistent_bindFresh {pre : List (Nat × LoadedObj)} {st : BState} {nid : Nat}
    {ev : Nat → BuildEvent} (hc : Consistent pre st)
    (hev : ∀ t, applyEvent st.nodes (ev t) = (nid, ⟨t⟩) :: st.nodes) :
    Consistent pre (bindFresh st nid ev) := by
  simp only [Consistent, bindFresh] at hc ⊢
  rw [replayA_append, ← hc, replayA, replayA, hev]

theorem lookupN_isSome_bindFresh {st : BState} {x : Nat} (nid : Nat) (ev : Nat → BuildEvent)
    (h : (lookupN st.nodes x).isSome) :
    (lookupN (bindFresh st nid ev).nodes x).isSome := by
  simp only [bindFresh, lookupN_cons]
  split <;> simp [h]

theorem loadPass1_spec (pre : List (Nat × LoadedObj)) (slotIds : List Nat)
    (iter : List (Nat × SavedObject)) (st : BState) (hc : Consistent pre st) :
    Consistent pre (loadPass1 slotIds iter st) ∧
    ∃ Mid, (loadPass1 slotIds iter st).trace = st.trace ++ Mid ∧
      ∀ e ∈ Mid, ∃ i t, e = BuildEvent.recreate i t ∧ slotIds.contains i = false := by
  induction iter generalizing st with
  | nil =>
    refine ⟨hc, [], by simp [loadPass1], by simp⟩
  | cons hd rest ih =>
    obtain ⟨nid, proto⟩ := hd
    rw [loadPass1]
    split
    · exact ih st hc
    · rename_i hcond
      have hslot : slotIds.contains nid = false := by
        cases h1 : slotIds.contains nid
        · rfl
        · exact absurd (by simp [List.mem_of_elem_eq_true h1]) hcond
      have hc1 : Consistent pre (bindFresh st nid (fun t => .recreate nid t)) :=
        consistent_bindFresh hc (fun t => by simp [applyEvent])
      obtain ⟨hc', Mid, htr, hall⟩ := ih _ hc1
      refine ⟨hc', BuildEvent.recreate nid st.fresh :: Mid, ?_, ?_⟩
      · rw [htr]
        simp [bindFresh]
      · intro e he
        rcases List.mem_cons.mp he with rfl | he'
        · exact ⟨nid, st.fresh, rfl, hslot⟩
        · exact hall e he'

theorem addSlotVariables_spec (pre : List (Nat × LoadedObj)) (opt_id : Nat)
    (refs : List SlotVariableRef) (st st' : BState)
    (h : addSlotVariables opt_id refs st = .ok st')
    (hc : Consistent pre st) (hg : GoodTrace pre st.trace)
    (hopt : (lookupN st.nodes opt_id).isSome) :
    Consistent pre st' ∧ GoodTrace pre st'.trace ∧
    (lookupN st'.nodes opt_id).isSome ∧
    ∃ Mid, st'.trace = st.trace ++ Mid ∧
      ∀ e ∈ Mid, ∃ s orig tok, e = BuildEvent.addSlot s orig opt_id tok := by
  induction refs generalizing st with
  | nil =>
    rw [addSlotVariables] at h
    cases h
    exact ⟨hc, hg, hopt, [], by simp, by simp⟩
  | cons r rs ih =>
    rw [addSlotVariables] at h
    cases hl : lookupN st.nodes r.original_variable_node_id with
    | none => rw [hl] at h; cases h
    | some v =>
      rw [hl] at h
      have hc1 : Consistent pre (bindFresh st r.slot_variable_node_id
          (fun t => .addSlot r.slot_variable_node_id r.original_variable_node_id opt_id t)) :=
        consistent_bindFresh hc (fun t => by simp [applyEvent])
      have hg1 : GoodTrace pre (bindFresh st r.slot_variable_node_id
          (fun t => .addSlot r.slot_variable_node_id r.original_variable_node_id opt_id t)).trace := by
        simp only [bindFresh]
        exact goodTrace_snoc_addSlot hg (hc ▸ (by simp [hl])) (hc ▸ hopt)
      have hopt1 := lookupN_isSome_bindFresh r.slot_variable_node_id
        (fun t => .addSlot r.slot_variable_node_id r.original_variable_node_id opt_id t) hopt
      obtain ⟨hc', hg', hopt', Mid, htr, hall⟩ := ih _ h hc1 hg1 hopt1
      refine ⟨hc', hg', hopt',
        BuildEvent.addSlot r.slot_variable_node_id r.original_variable_node_id opt_id st.fresh :: Mid,
        ?_, ?_⟩
      · rw [htr]
        simp [bindFresh]
      · intro e he
        rcases List.mem_cons.mp he with rfl | he'
        · exact ⟨_, _, _, rfl⟩
        · exact hall e he'

theorem loadPass2_spec (pre : List (Nat × LoadedObj)) (iter : List (Nat × SavedObject))
    (st st' : BState) (h : loadPass2 iter st = .ok st')
    (hc : Consistent pre st) (hg : GoodTrace pre st.trace) :
    Consistent pre st' ∧ GoodTrace pre st'.trace ∧
    ∃ Mid, st'.trace = st.trace ++ Mid ∧
      ∀ e ∈ Mid, ∃ s orig opt tok, e = BuildEvent.addSlot s orig opt tok := by
  induction iter generalizing st with
  | nil =>
    rw [loadPass2] at h
    cases h
    exact ⟨hc, hg, [], by simp, by simp⟩
  | cons hd rest ih =>
    obtain ⟨nid, proto⟩ := hd
    rw [loadPass2] at h
    cases hl : lookupN st.nodes nid with
    | none => rw [hl] at h; cases h
    | some v =>
      rw [hl] at h
      cases hmid : addSlotVariables nid proto.slot_variables st with
      | error e => rw [hmid] at h; cases h
      | ok stm =>
        rw [hmid] at h
        simp only [Except.bind] at h
        obtain ⟨hcm, hgm, -, Mid1, htr1, hall1⟩ :=
          addSlotVariables_spec pre nid proto.slot_variables st stm hmid hc hg (by simp [hl])
        obtain ⟨hc', hg', Mid2, htr2, hall2⟩ := ih _ h hcm hgm
        refine ⟨hc', hg', Mid1 ++ Mid2, ?_, ?_⟩
        · rw [htr2, htr1, List.append_assoc]
        · intro e he
          rcases List.mem_append.mp he with he1 | he2
          · obtain ⟨s, orig, tok, rfl⟩ := hall1 e he1
            exact ⟨_, _, _, _, rfl⟩
          · exact hall2 e he2

theorem addSlotVariables_mono {opt_id : Nat} {refs : List SlotVariableRef} {st st' : BState}
    (h : addSlotVariables opt_id refs st = .ok st') {x : Nat}
    (hx : (lookupN st.nodes x).isSome) : (lookupN st'.nodes x).isSome := by
  induction refs generalizing st with
  | nil => rw [addSlotVariables] at h; cases h; exact hx
  | cons r rs ih =>
    rw [addSlotVariables] at h
    cases hl : lookupN st.nodes r.original_variable_node_id with
    | none => rw [hl] at h; cases h
    | some v =>
      rw [hl] at h
      exact ih h (lookupN_isSome_bindFresh _ _ hx)

theorem addSlotVariables_binds {opt_id : Nat} {refs : List SlotVariableRef} {st st' : BState}
    (h : addSlotVariables opt_id refs st = .ok st') :
    ∀ r ∈ refs, (lookupN st'.nodes r.slot_variable_node_id).isSome := by
  induction refs generalizing st with
  | nil => simp
  | cons r rs ih =>
    rw [addSlotVariables] at h
    cases hl : lookupN st.nodes r.original_variable_node_id with
    | none => rw [hl] at h; cases h
    | some v =>
      rw [hl] at h
      intro r' hr'
      rcases List.mem_cons.mp hr' with rfl | hr'
      · exact addSlotVariables_mono h (by simp [bindFresh, lookupN_cons])
      · exact ih h r' hr'

theorem loadPass2_mono {iter : List (Nat × SavedObject)} {st st' : BState}
    (h : loadPass2 iter st = .ok st') {x : Nat}
    (hx : (lookupN st.nodes x).isSome) : (lookupN st'.nodes x).isSome := by
  induction iter generalizing st with
  | nil => rw [loadPass2] at h; cases h; exact hx
  | cons hd rest ih =>
    obtain ⟨nid, proto⟩ := hd
    rw [loadPass2] at h
    cases hl : lookupN st.nodes nid with
    | none => rw [hl] at h; cases h
    | some v =>
      rw [hl] at h
      cases hmid : addSlotVariables nid proto.slot_variables st with
      | error e => rw [hmid] at h; cases h
      | ok stm =>
        rw [hmid] at h
        simp only [Except.bind] at h
        exact ih h (addSlotVariables_mono hmid hx)

theorem loadPass2_binds_each {iter : List (Nat × SavedObject)} {st st' : BState}
    (h : loadPass2 iter st = .ok st') :
    ∀ e ∈ iter, ∀ r ∈ e.2.slot_variables,
      (lookupN st'.nodes r.slot_variable_node_id).isSome := by
  induction iter generalizing st with
  | nil => simp
  | cons hd rest ih =>
    obtain ⟨nid, proto⟩ := hd
    rw [loadPass2] at h
    cases hl : lookupN st.nodes nid with
    | none => rw [hl] at h; cases h
    | some v =>
      rw [hl] at h
      cases hmid : addSlotVariables nid proto.slot_variables st with
      | error e => rw [hmid] at h; cases h
      | ok stm =>
        rw [hmid] at h
        simp only [Except.bind] at h
        intro e he r hr
        rcases List.mem_cons.mp he with rfl | he2
        · exact loadPass2_mono h (addSlotVariables_binds hmid r hr)
        · exact ih h e he2 r hr

/-- After a successful second pass, every slot-variable target named by the
iterated protos is bound. -/
theorem loadPass2_binds_slots {iter : List (Nat × SavedObject)} {st st' : BState}
    (h : loadPass2 iter st = .ok st') :
    ∀ s, s ∈ slotVariableNodeIds iter → (lookupN st'.nodes s).isSome := by
  intro s hs
  rw [slotVariableNodeIds, List.mem_flatMap] at hs
  obtain ⟨e, he, hs⟩ := hs
  rw [List.mem_map] at hs
  obtain ⟨r, hr, rfl⟩ := hs
  exact loadPass2_binds_each h e he r hr

theorem goodTrace_nil (pre : List (Nat × LoadedObj)) : GoodTrace pre [] := by
  intro t1 s orig opt tok t2 heq
  exact absurd heq.symm (by simp)

theorem tokInv_loadPass1 (slotIds : List Nat) (iter : List (Nat × SavedObject)) (st : BState)
    (hB : TokBound st.nodes st.fresh) (hI : TokInj st.nodes) :
    TokBound (loadPass1 slotIds iter st).nodes (loadPass1 slotIds iter st).fresh ∧
    TokInj (loadPass1 slotIds iter st).nodes := by
  induction iter generalizing st with
  | nil => exact ⟨hB, hI⟩
  | cons hd rest ih =>
    obtain ⟨nid, proto⟩ := hd
    rw [loadPass1]
    split
    · exact ih st hB hI
    · have h := tokInv_bindFresh st nid (fun t => .recreate nid t) hB hI
      exact ih _ h.1 h.2

theorem tokInv_addSlotVariables {opt_id : Nat} {refs : List SlotVariableRef} {st st' : BState}
    (h : addSlotVariables opt_id refs st = .ok st')
    (hB : TokBound st.nodes st.fresh) (hI : TokInj st.nodes) :
    TokBound st'.nodes st'.fresh ∧ TokInj st'.nodes := by
  induction refs generalizing st with
  | nil => rw [addSlotVariables] at h; cases h; exact ⟨hB, hI⟩
  | cons r rs ih =>
    rw [addSlotVariables] at h
    cases hl : lookupN st.nodes r.original_variable_node_id with
    | none => rw [hl] at h; cases h
    | some v =>
      rw [hl] at h
      have hb := tokInv_bindFresh st r.slot_variable_node_id
        (fun t => .addSlot r.slot_variable_node_id r.original_variable_node_id opt_id t) hB hI
      exact ih h hb.1 hb.2

theorem tokInv_loadPass2 {iter : List (Nat × SavedObject)} {st st' : BState}
    (h : loadPass2 iter st = .ok st')
    (hB : TokBound st.nodes st.fresh) (hI : TokInj st.nodes) :
    TokBound st'.nodes st'.fresh ∧ TokInj st'.nodes := by
  induction iter generalizing st with
  | nil => rw [loadPass2] at h; cases h; exact ⟨hB, hI⟩
  | cons hd rest ih =>
    obtain ⟨nid, proto⟩ := hd
    rw [loadPass2] at h
    cases hl : lookupN st.nodes nid with
    | none => rw [hl] at h; cases h
    | some v =>
      rw [hl] at h
      cases hmid : addSlotVariables nid proto.slot_variables st with
      | error e => rw [hmid] at h; cases h
      | ok stm =>
        rw [hmid] at h
        simp only [Except.bind] at h
        have hb := tokInv_addSlotVariables hmid hB hI
        exact ih h hb.1 hb.2

/-- The combined facts about a successful `loadNodes` run: token
bound/injectivity, the shape of the returned array, state/trace consistency,
the `GoodTrace` ordering property, and the three-phase decomposition of the
trace. -/
theorem loadNodes_spec {g : SavedObjectGraph} {iter : List (Nat × SavedObject)}
    {pre : List (Nat × LoadedObj)} {fresh0 : Nat}
    {nl : List (Option LoadedObj)} {st : BState}
    (h : loadNodes g iter pre fresh0 = .ok (nl, st)) :
    nl = (List.range g.nodes.length).map (fun i => lookupN st.nodes i) ∧
    Consistent pre st ∧ GoodTrace pre st.trace ∧
    ∃ D1 D2 D3, st.trace = D1 ++ D2 ++ D3 ∧
      (∀ e ∈ D1, ∃ i t, e = BuildEvent.recreate i t ∧
        (slotVariableNodeIds iter).contains i = false) ∧
      (∀ e ∈ D2, ∃ s orig opt t, e = BuildEvent.addSlot s orig opt t) ∧
      (D3 = [] ∨ ∃ t, D3 = [BuildEvent.dummyRoot t] ∧ 0 ∉ slotVariableNodeIds iter) := by
  rw [loadNodes] at h
  set st1 := loadPass1 (slotVariableNodeIds iter) iter ⟨pre, fresh0, []⟩ with hst1
  cases hp2 : loadPass2 iter st1 with
  | error e => rw [hp2] at h; cases h
  | ok st2 =>
    rw [hp2] at h
    simp only [Except.bind] at h
    have hc0 : Consistent pre (⟨pre, fresh0, []⟩ : BState) := rfl
    obtain ⟨hc1, D1, htr1, hall1⟩ :=
      loadPass1_spec pre (slotVariableNodeIds iter) iter ⟨pre, fresh0, []⟩ hc0
    rw [← hst1] at hc1 htr1
    simp only [] at htr1
    have hg1 : GoodTrace pre st1.trace := by
      rw [htr1]
      have hD1 : ∀ s orig opt tok, BuildEvent.addSlot s orig opt tok ∉ D1 := by
        intro s orig opt tok hmem
        obtain ⟨i, t, he, -⟩ := hall1 _ hmem
        cases he
      simpa using goodTrace_append (goodTrace_nil pre) hD1
    obtain ⟨hc2, hg2, D2, htr2, hall2⟩ := loadPass2_spec pre iter st1 st2 hp2 hc1 hg1
    simp only [bind, Except.bind] at h
    cases hz : (lookupN st2.nodes 0).isSome with
    | true =>
      simp only [hz, if_true, Except.ok.injEq, Prod.mk.injEq] at h
      obtain ⟨hnl, hst⟩ := h
      subst hst
      refine ⟨hnl.symm, hc2, hg2, D1, D2, [], ?_, hall1, hall2, .inl rfl⟩
      rw [htr2, htr1]
      simp
    | false =>
      simp only [hz, Bool.false_eq_true, if_false, Except.ok.injEq, Prod.mk.injEq] at h
      obtain ⟨hnl, hst⟩ := h
      subst hst
      have hc3 : Consistent pre (bindFresh st2 0 (fun t => .dummyRoot t)) :=
        consistent_bindFresh hc2 (fun t => by simp [applyEvent])
      have hg3 : GoodTrace pre (bindFresh st2 0 (fun t => .dummyRoot t)).trace := by
        simp only [bindFresh]
        refine goodTrace_append hg2 ?_
        intro s orig opt tok hmem
        simp at hmem
      have hnoslot : 0 ∉ slotVariableNodeIds iter := by
        intro hs
        have := loadPass2_binds_slots hp2 0 hs
        rw [hz] at this
        cases this
      refine ⟨hnl.symm, hc3, hg3,
        D1, D2, [BuildEvent.dummyRoot st2.fresh], ?_, hall1, hall2, .inr ⟨st2.fresh, rfl, hnoslot⟩⟩
      simp only [bindFresh]
      rw [htr2, htr1]
      simp

/-- Token soundness of a successful `loadNodes` run: the final dictionary
still maps distinct ids to distinct objects. -/
theorem loadNodes_tokInj {g : SavedObjectGraph} {iter : List (Nat × SavedObject)}
    {pre : List (Nat × LoadedObj)} {fresh0 : Nat}
    {nl : List (Option LoadedObj)} {st : BState}
    (h : loadNodes g iter pre fresh0 = .ok (nl, st))
    (hB : TokBound pre fresh0) (hI : TokInj pre) :
    TokInj st.nodes := by
  rw [loadNodes] at h
  set st1 := loadPass1 (slotVariableNodeIds iter) iter ⟨pre, fresh0, []⟩ with hst1
  cases hp2 : loadPass2 iter st1 with
  | error e => rw [hp2] at h; cases h
  | ok st2 =>
    rw [hp2] at h
    simp only [bind, Except.bind] at h
    have hinv1 := tokInv_loadPass1 (slotVariableNodeIds iter) iter ⟨pre, fresh0, []⟩ hB hI
    rw [← hst1] at hinv1
    have hinv2 := tokInv_loadPass2 hp2 hinv1.1 hinv1.2
    cases hz : (lookupN st2.nodes 0).isSome with
    | true =>
      simp only [hz, if_true, Except.ok.injEq, Prod.mk.injEq] at h
      exact h.2 ▸ hinv2.2
    | false =>
      simp only [hz, Bool.false_eq_true, if_false, Except.ok.injEq, Prod.mk.injEq] at h
      exact h.2 ▸ (tokInv_bindFresh st2 0 (fun t => .dummyRoot t) hinv2.1 hinv2.2).2

/-- Membership in the class-callability set is preserved by wiring more
edges. -/
theorem addObjectGraphEdges_hasCall_mono (obj : PyObject) (children : List ChildEdge)
    (ts : TypeState) (ws : List AttrWrite) (t : Nat) (h : t ∈ ts.hasCallAttr) :
    t ∈ (addObjectGraphEdges obj children ts ws).1.hasCallAttr := by
  induction children generalizing ts ws with
  | nil => exact h
  | cons r rest ih =>
    rw [addObjectGraphEdges]
    split
    · exact ih _ _ (List.mem_cons_of_mem _ h)
    · exact ih _ _ h

/-- C1: for every partial load whose filters contain two valid dotted paths
resolving to the same node id, the returned mapping hands back the very same
object for both paths (same allocation token, i.e. pointer identity), every
resolved path reads straight out of the single id-indexed `self._nodes`
arena, and during one load at most one object exists per node id (equal
tokens force equal ids). -/
theorem C1_partial_load_object_identity (g : SavedObjectGraph) (filters : List String)
    (preNodes : List (Nat × Bool)) (pre : List (Nat × LoadedObj)) (fresh0 fuel : Nat)
    (p2i : List (String × Nat)) (nl : List (Option LoadedObj)) (st : BState)
    (hB : TokBound pre fresh0) (hI : TokInj pre)
    (h : loadPartialModel g filters preNodes pre fresh0 fuel = some (.ok (p2i, nl, st))) :
    (∀ P1 P2 i, P1 ∈ filters → P2 ∈ filters →
       lookupS p2i P1 = some i → lookupS p2i P2 = some i →
       loaderGet p2i nl P1 = loaderGet p2i nl P2) ∧
    (∀ i, i < g.nodes.length → ∀ P, lookupS p2i P = some i →
       loaderGet p2i nl P = lookupN st.nodes i) ∧
    (∀ i j o p, lookupN st.nodes i = some o → lookupN st.nodes j = some p →
       o.tok = p.tok → i = j) := by
  rw [loadPartialModel] at h
  split at h
  · cases h
  · split at h
    · cases h
    · cases h
    · split at h
      · cases h
      · rename_i p2i0 filtered p2iA hretA nlA stA hload
        simp only [Option.some.injEq, Except.ok.injEq, Prod.mk.injEq] at h
        obtain ⟨hp2i, hnl, hst⟩ := h
        subst hp2i
        subst hnl
        subst hst
        obtain ⟨hshape, -, -, -⟩ := loadNodes_spec hload
        refine ⟨?_, ?_, ?_⟩
        · intro P1 P2 i h1 h2 hl1 hl2
          simp [loaderGet, hl1, hl2]
        · intro i hi P hl
          simp [loaderGet, hl, hshape, List.getD_eq_getElem?_getD, List.getElem?_map,
            List.getElem?_range hi]
        · exact loadNodes_tokInj hload hB hI

/-- Witness for C1: in `sharedTargetGraph` the filter paths `root.a` and
`root.b` both resolve to node 1, and the partial-load mapping returns the
identical object for them. -/
theorem C1_shared_path_witness :
    loaderGet [("root.a", 1), ("root.b", 1)]
        [some ⟨1⟩, some ⟨0⟩] "root.a"
      = loaderGet [("root.a", 1), ("root.b", 1)]
        [some ⟨1⟩, some ⟨0⟩] "root.b" :=
  (C1_partial_load_object_identity sharedTargetGraph ["root.a", "root.b"] [] [] 0 9
      [("root.a", 1), ("root.b", 1)] [some ⟨1⟩, some ⟨0⟩]
      ⟨[(0, ⟨1⟩), (1, ⟨0⟩)], 2,
        [BuildEvent.recreate 1 0, BuildEvent.dummyRoot 1]⟩
      (by intro i o hx; simp [lookupN] at hx)
      (by intro i j o p hx; simp [lookupN] at hx)
      (by decide)).1
    "root.a" "root.b" 1 (by decide) (by decide) (by decide) (by decide)

/-- C2: in allow-partial mode the restore succeeds even when persisted
entries are unmatched but fails with `NoMatchError` when zero non-trivial
matches occurred; in strict mode it fails with `UnmatchedObjectsError` when
any constructed trackable lacks a persisted entry or vice versa (the latter
assertions are modelled from the spec, their implementation living outside
this repository's files). -/
theorem C2_checkpoint_restore_modes (st : CheckpointLoadStatus) :
    (st.nontrivialMatches ≠ 0 →
       restoreCheckpoint true st = .ok (expectPartialStatus st)) ∧
    (st.nontrivialMatches = 0 →
       restoreCheckpoint true st = .error .noMatchError) ∧
    (st.unmatchedObjects ≠ 0 ∨ st.unmatchedEntries ≠ 0 →
       restoreCheckpoint false st = .error .unmatchedObjectsError) ∧
    (st.unmatchedObjects = 0 → st.unmatchedEntries = 0 →
       restoreCheckpoint false st = .ok st) := by
  refine ⟨?_, ?_, ?_, ?_⟩
  · intro h
    simp [restoreCheckpoint, assertNontrivialMatch, expectPartialStatus, h]
  · intro h
    simp [restoreCheckpoint, assertNontrivialMatch, expectPartialStatus, h]
  · intro h
    simp [restoreCheckpoint, assertExistingObjectsMatched, h]
  · intro h1 h2
    simp [restoreCheckpoint, assertExistingObjectsMatched, h1, h2]

/-- Witness for C2 at concrete load statuses: allow-partial succeeds with 3
unmatched persisted entries, fails with `NoMatchError` at zero non-trivial
matches; strict fails in either unmatched direction and succeeds when
everything matched. -/
theorem C2_restore_modes_witness :
    restoreCheckpoint true ⟨4, 3, 2, false⟩ = .ok ⟨4, 3, 2, true⟩ ∧
    restoreCheckpoint true ⟨0, 3, 0, false⟩ = .error .noMatchError ∧
    restoreCheckpoint false ⟨0, 3, 2, false⟩ = .error .unmatchedObjectsError ∧
    restoreCheckpoint false ⟨1, 0, 2, false⟩ = .error .unmatchedObjectsError ∧
    restoreCheckpoint false ⟨0, 0, 2, false⟩ = .ok ⟨0, 0, 2, false⟩ :=
  ⟨(C2_checkpoint_restore_modes ⟨4, 3, 2, false⟩).1 (by decide),
   (C2_checkpoint_restore_modes ⟨0, 3, 0, false⟩).2.1 (by decide),
   (C2_checkpoint_restore_modes ⟨0, 3, 2, false⟩).2.2.1 (by decide),
   (C2_checkpoint_restore_modes ⟨1, 0, 2, false⟩).2.2.1 (by decide),
   (C2_checkpoint_restore_modes ⟨0, 0, 2, false⟩).2.2.2 (by decide) (by decide)⟩

/-- C3: whenever the filter-closure traversal visits node id 0, the filter
selector collapses to the load-all sentinel `none`, under which
`_iter_all_nodes` enumerates every node of the serialized array — the
iterated ids are exactly `range(len(nodes))`, with no graph-reachability
condition, so nodes unreachable from the root are materialized too. -/
theorem C3_root_filter_loads_all (g : SavedObjectGraph) (preNodes : List (Nat × Bool))
    (fuel : Nat) (p2i0 p2i : List (String × Nat)) (filters : List String)
    (visited : List Nat)
    (hrun : traverseAux g preNodes fuel p2i0 [] filters = some (.ok (p2i, visited)))
    (hzero : 0 ∈ visited) :
    retrieveAllFilteredNodes g preNodes fuel p2i0 (some filters)
      = some (.ok (none, p2i)) ∧
    (iterAllNodes g none).map Prod.fst = List.range g.nodes.length ∧
    (∀ i nd, g.nodes[i]? = some nd → (i, nd) ∈ iterAllNodes g none) := by
  refine ⟨?_, ?_, ?_⟩
  · simp [retrieveAllFilteredNodes, hrun, hzero]
  · simp [iterAllNodes, List.enum_map_fst]
  · intro i nd h
    simpa [iterAllNodes, List.mk_mem_enum_iff_getElem?] using h

/-- Witness for C3 on `cycleGraph`: the filter `root.a` reaches node 1 and,
through the cycle, node 0, so the selector returns the sentinel and the
iteration covers the unreachable node 2 as well. -/
theorem C3_root_filter_witness :
    retrieveAllFilteredNodes cycleGraph [] 9 [("root.a", 1)] (some ["root.a"])
      = some (.ok (none, [("root.a.b.a", 1), ("root.a.b", 0), ("root.a", 1)])) ∧
    ((2 : Nat), (⟨.variableNode, [], []⟩ : SavedObject)) ∈ iterAllNodes cycleGraph none := by
  have h := C3_root_filter_loads_all cycleGraph [] 9 [("root.a", 1)]
    [("root.a.b.a", 1), ("root.a.b", 0), ("root.a", 1)] ["root.a"] [1, 0]
    (by decide) (by decide)
  exact ⟨h.1, h.2.2 2 ⟨.variableNode, [], []⟩ (by decide)⟩

/-- C4: capture resolution maps a referenced loaded node by kind — a
distributed value to itself, a resource-backed variable to its handle, an
asset to its path, a plain tensor value to itself, a capturable resource to
the handle its initialization action produced — fails with the
capture-resolution failure on any other kind, and in a filtered load fails
with the missing-dependency failure when the referenced node was never
loaded. -/
theorem C4_capture_resolution (fil : Option (List String))
    (nodes : List (Option RTObject)) (node_id : Nat) (fn_name : String) :
    (∀ h, nodes.getD node_id none = some (.distributedVariable h) →
       getTensorFromNode fil nodes node_id fn_name
         = .ok (.objValue (.distributedVariable h))) ∧
    (∀ h, nodes.getD node_id none = some (.resourceVariable h) →
       getTensorFromNode fil nodes node_id fn_name = .ok (.handleValue h)) ∧
    (∀ p, nodes.getD node_id none = some (.assetObj p) →
       getTensorFromNode fil nodes node_id fn_name = .ok (.pathValue p)) ∧
    (∀ v, nodes.getD node_id none = some (.tensorValue v) →
       getTensorFromNode fil nodes node_id fn_name
         = .ok (.objValue (.tensorValue v))) ∧
    (∀ h, nodes.getD node_id none = some (.capturableResource h) →
       getTensorFromNode fil nodes node_id fn_name = .ok (.handleValue h)) ∧
    (∀ d, nodes.getD node_id none = some (.otherObj d) →
       getTensorFromNode fil nodes node_id fn_name
         = .error (.captureResolution d)) ∧
    (fil.isSome = true → nodes.getD node_id none = none →
       getTensorFromNode fil nodes node_id fn_name
         = .error (.missingDependency fn_name)) := by
  refine ⟨?_, ?_, ?_, ?_, ?_, ?_, ?_⟩
  case refine_7 =>
    intro hf hn
    rw [List.getD_eq_getElem?_getD] at hn
    rw [Option.isSome_iff_ne_none] at hf
    simp [getTensorFromNode, hn, hf]
  all_goals intro x hx
  all_goals rw [List.getD_eq_getElem?_getD] at hx
  all_goals simp [getTensorFromNode, hx]

/-- Witness for C4: one concrete input per branch of the dispatch. -/
theorem C4_capture_resolution_witness :
    getTensorFromNode none [some (.resourceVariable 7)] 0 "f" = .ok (.handleValue 7) ∧
    getTensorFromNode none [some (.assetObj "assets/x.txt")] 0 "f"
      = .ok (.pathValue "assets/x.txt") ∧
    getTensorFromNode none [some (.distributedVariable 3)] 0 "f"
      = .ok (.objValue (.distributedVariable 3)) ∧
    getTensorFromNode none [some (.tensorValue 5)] 0 "f"
      = .ok (.objValue (.tensorValue 5)) ∧
    getTensorFromNode none [some (.capturableResource 9)] 0 "f" = .ok (.handleValue 9) ∧
    getTensorFromNode none [some (.otherObj "TrackableDict")] 0 "f"
      = .error (.captureResolution "TrackableDict") ∧
    getTensorFromNode (some ["root.f"]) [none] 0 "f" = .error (.missingDependency "f") :=
  ⟨(C4_capture_resolution none [some (.resourceVariable 7)] 0 "f").2.1 7 (by decide),
   (C4_capture_resolution none [some (.assetObj "assets/x.txt")] 0 "f").2.2.1 _ (by decide),
   (C4_capture_resolution none [some (.distributedVariable 3)] 0 "f").1 3 (by decide),
   (C4_capture_resolution none [some (.tensorValue 5)] 0 "f").2.2.2.1 5 (by decide),
   (C4_capture_resolution none [some (.capturableResource 9)] 0 "f").2.2.2.2.1 9 (by decide),
   (C4_capture_resolution none [some (.otherObj "TrackableDict")] 0 "f").2.2.2.2.2.1 _ (by decide),
   (C4_capture_resolution (some ["root.f"]) [none] 0 "f").2.2.2.2.2.2 (by decide) (by decide)⟩

/-- C5: capture resolution of a restored function is a function of the
call-time context (never cached — the last conjunct shows two calls with
different contexts resolve differently): inside a replica context or while
saving a non-distributed artifact every distributed capture resolves to its
per-replica handle, outside any replica context it resolves to an inert
placeholder guarded by the constant-False assertion; non-distributed
captures always pass through unchanged. -/
theorem C5_call_time_capture_resolution (ctx : ExecContext) (caps : List CapturedInput) :
    (ctx.inReplicaContext = true ∨ ctx.savingNonDistributed = true →
       callFlatCaptures ctx caps = caps.map getHandle) ∧
    (ctx.inReplicaContext = false → ctx.savingNonDistributed = false →
       callFlatCaptures ctx caps = caps.map getUnusedHandle) ∧
    (∀ h, getHandle (.distributedVariable h) = .handleOf h) ∧
    (∀ v, getHandle (.ordinaryValue v) = .itself v) ∧
    (∀ h, getUnusedHandle (.distributedVariable h) = unusedHandle) ∧
    (∀ v, getUnusedHandle (.ordinaryValue v) = .itself v) ∧
    unusedHandle = .unusedPlaceholder false ∧
    (∃ c1 c2 : ExecContext, ∃ xs : List CapturedInput,
       callFlatCaptures c1 xs ≠ callFlatCaptures c2 xs) := by
  refine ⟨?_, ?_, fun h => rfl, fun v => rfl, fun h => rfl, fun v => rfl, rfl,
    ⟨⟨true, false⟩, ⟨false, false⟩, [.distributedVariable 0], by decide⟩⟩
  · intro h
    rcases h with h | h <;> simp [callFlatCaptures, h]
  · intro h1 h2
    simp [callFlatCaptures, h1, h2]

/-- Witness for C5: the same captured inputs resolved under the three
context settings. -/
theorem C5_call_time_witness :
    callFlatCaptures ⟨true, false⟩ [.distributedVariable 4, .ordinaryValue 6]
      = [.handleOf 4, .itself 6] ∧
    callFlatCaptures ⟨false, true⟩ [.distributedVariable 4, .ordinaryValue 6]
      = [.handleOf 4, .itself 6] ∧
    callFlatCaptures ⟨false, false⟩ [.distributedVariable 4, .ordinaryValue 6]
      = [.unusedPlaceholder false, .itself 6] :=
  ⟨(C5_call_time_capture_resolution ⟨true, false⟩ _).1 (.inl rfl),
   (C5_call_time_capture_resolution ⟨false, true⟩ _).1 (.inr rfl),
   (C5_call_time_capture_resolution ⟨false, false⟩ _).2.1 rfl rfl⟩

theorem addObjectGraphEdges_call_mem (obj : PyObject) (edge : ChildEdge)
    (children : List ChildEdge) (ts : TypeState) (ws0 : List AttrWrite)
    (hmem : edge ∈ children) (hname : edge.local_name = "__call__") :
    obj.type_id ∈ (addObjectGraphEdges obj children ts ws0).1.hasCallAttr := by
  induction children generalizing ts ws0 with
  | nil => cases hmem
  | cons r rest ih =>
    simp only [addObjectGraphEdges]
    rcases List.mem_cons.mp hmem with rfl | hmem2
    · by_cases hcall : isCallable ts obj = true
      · have hmemcall : obj.type_id ∈ ts.hasCallAttr := by
          simpa [isCallable, List.contains] using hcall
        split
        · exact addObjectGraphEdges_hasCall_mono obj rest _ _ obj.type_id
            (List.mem_cons_self _ _)
        · exact addObjectGraphEdges_hasCall_mono obj rest _ _ obj.type_id hmemcall
      · rw [if_pos (by simp [hname, hcall])]
        exact addObjectGraphEdges_hasCall_mono obj rest _ _ obj.type_id
          (List.mem_cons_self _ _)
    · split
      · exact ih _ _ hmem2
      · exact ih _ _ hmem2

/-- C6: on every successful `_load_nodes` run, no slot-variable target is
constructed by the first pass (no `recreate` event carries one), every
construction of a slot-variable target is an `add_slot` invocation of the
second pass, and at each such construction the optimized variable and the
optimizer-like object already exist — pre-supplied or constructed strictly
earlier in the build trace; hence a slot variable is never constructed
before the variable it augments. -/
theorem C6_slot_variables_second_pass (g : SavedObjectGraph)
    (iter : List (Nat × SavedObject)) (pre : List (Nat × LoadedObj)) (fresh0 : Nat)
    (nl : List (Option LoadedObj)) (st : BState)
    (h : loadNodes g iter pre fresh0 = .ok (nl, st)) :
    (∀ i t, BuildEvent.recreate i t ∈ st.trace → i ∉ slotVariableNodeIds iter) ∧
    (∀ e ∈ st.trace, ∀ s ∈ slotVariableNodeIds iter, constructsId e s = true →
       ∃ orig opt t, e = BuildEvent.addSlot s orig opt t) ∧
    (∀ t1 s orig opt tok t2, st.trace = t1 ++ BuildEvent.addSlot s orig opt tok :: t2 →
       ((lookupN pre orig).isSome ∨ ∃ e ∈ t1, constructsId e orig = true) ∧
       ((lookupN pre opt).isSome ∨ ∃ e ∈ t1, constructsId e opt = true)) := by
  obtain ⟨-, -, hg, D1, D2, D3, htr, hall1, hall2, hD3⟩ := loadNodes_spec h
  have hmem3 : ∀ e ∈ D3, ∃ t, e = BuildEvent.dummyRoot t ∧ 0 ∉ slotVariableNodeIds iter := by
    rcases hD3 with rfl | ⟨t, rfl, hns⟩
    · simp
    · intro e he
      rcases List.mem_cons.mp he with rfl | he2
      · exact ⟨t, rfl, hns⟩
      · cases he2
  refine ⟨?_, ?_, ?_⟩
  · intro i t hmem
    rw [htr] at hmem
    rcases List.mem_append.mp hmem with hm | hm3
    · rcases List.mem_append.mp hm with hm1 | hm2
      · obtain ⟨i2, t2, he, hcf⟩ := hall1 _ hm1
        cases he
        intro hmemslot
        have hct : (slotVariableNodeIds iter).contains i = true := by
          simpa [List.contains] using List.elem_eq_true_of_mem hmemslot
        rw [hct] at hcf
        cases hcf
      · obtain ⟨s, orig, opt, tk, he⟩ := hall2 _ hm2
        cases he
    · obtain ⟨t2, he, -⟩ := hmem3 _ hm3
      cases he
  · intro e hmem s hs hcon
    rw [htr] at hmem
    rcases List.mem_append.mp hmem with hm | hm3
    · rcases List.mem_append.mp hm with hm1 | hm2
      · obtain ⟨i2, t2, rfl, hcf⟩ := hall1 _ hm1
        simp [constructsId] at hcon
        rw [hcon] at hcf
        have hct : (slotVariableNodeIds iter).contains s = true := by
          simpa [List.contains] using List.elem_eq_true_of_mem hs
        rw [hct] at hcf
        cases hcf
      · obtain ⟨s2, orig, opt, tk, rfl⟩ := hall2 _ hm2
        simp [constructsId] at hcon
        exact ⟨orig, opt, tk, by rw [hcon]⟩
    · obtain ⟨t2, rfl, hns⟩ := hmem3 _ hm3
      simp [constructsId] at hcon
      rw [← hcon] at hs
      exact absurd hs hns
  · intro t1 s orig opt tok t2 heq
    obtain ⟨ho, hp⟩ := hg t1 s orig opt tok t2 heq
    exact ⟨lookupN_replayA ho, lookupN_replayA hp⟩

/-- Witness for C6 on `optimizerGraph`: slot node 3 is never recreated in
the first pass, and at its `add_slot` construction both the variable (node
2) and the optimizer (node 1) were constructed earlier in the trace. -/
theorem C6_slot_variables_witness :
    (BuildEvent.recreate 3 3 ∉
      [BuildEvent.recreate 0 0, BuildEvent.recreate 1 1, BuildEvent.recreate 2 2,
       BuildEvent.addSlot 3 2 1 3]) ∧
    ((lookupN [] 2).isSome = true ∨
      ∃ e ∈ [BuildEvent.recreate 0 0, BuildEvent.recreate 1 1, BuildEvent.recreate 2 2],
        constructsId e 2 = true) ∧
    ((lookupN [] 1).isSome = true ∨
      ∃ e ∈ [BuildEvent.recreate 0 0, BuildEvent.recreate 1 1, BuildEvent.recreate 2 2],
        constructsId e 1 = true) := by
  have h := C6_slot_variables_second_pass optimizerGraph
    (iterAllNodes optimizerGraph none) [] 0
    [some ⟨0⟩, some ⟨1⟩, some ⟨2⟩, some ⟨3⟩]
    ⟨[(3, ⟨3⟩), (2, ⟨2⟩), (1, ⟨1⟩), (0, ⟨0⟩)], 4,
      [BuildEvent.recreate 0 0, BuildEvent.recreate 1 1, BuildEvent.recreate 2 2,
       BuildEvent.addSlot 3 2 1 3]⟩
    (by decide)
  have hord := h.2.2
    [BuildEvent.recreate 0 0, BuildEvent.recreate 1 1, BuildEvent.recreate 2 2]
    3 2 1 3 [] (by decide)
  refine ⟨?_, hord.1, hord.2⟩
  intro hmem
  have h3 : (3 : Nat) ∈ slotVariableNodeIds (iterAllNodes optimizerGraph none) := by decide
  exact absurd h3 (h.1 3 3 (by exact hmem))

/-- C7: wiring a `"__call__"` child edge onto an object that is not already
callable attaches `_call_attribute` to the object's class, so afterwards
every instance sharing that class is callable. -/
theorem C7_callable_attached_to_type (ts : TypeState) (ws0 : List AttrWrite)
    (obj : PyObject) (children : List ChildEdge) (edge : ChildEdge)
    (hmem : edge ∈ children) (hname : edge.local_name = "__call__") :
    ∀ o' : PyObject, o'.type_id = obj.type_id →
      isCallable (addObjectGraphEdges obj children ts ws0).1 o' = true := by
  intro o' hty
  have h := addObjectGraphEdges_call_mem obj edge children ts ws0 hmem hname
  simp [isCallable, hty, List.contains]
  exact h

/-- Witness for C7: wiring object 10 of class 3 makes the distinct object 11
of the same class callable. -/
theorem C7_callable_witness :
    isCallable
      (addObjectGraphEdges ⟨10, 3⟩ [⟨"v", 1⟩, ⟨"__call__", 2⟩] ⟨[]⟩ []).1
      ⟨11, 3⟩ = true :=
  C7_callable_attached_to_type ⟨[]⟩ [] ⟨10, 3⟩ [⟨"v", 1⟩, ⟨"__call__", 2⟩]
    ⟨"__call__", 2⟩ (by decide) rfl ⟨11, 3⟩ rfl

/-- C8 (amended): path resolution splits the path on `.`, fails with
`MalformedPathError` when the first segment is not `root`, walks the
segments through child-edge lookups, and fails with `UnknownChildError` as
soon as the current node has no child with the next segment's local name —
the error carrying the dotted path from the root up to and including the
missing segment (not the parent path). -/
theorem C8_path_resolution_amended :
    (∀ (g : SavedObjectGraph) (path first : String) (rest : List String),
       splitDot path = first :: rest → first ≠ "root" →
       resolvePath g path = .error (.malformedPath path)) ∧
    (∀ (g : SavedObjectGraph) (path : String) (rest : List String),
       splitDot path = "root" :: rest →
       resolvePath g path = resolvePathAux g 0 ["root"] rest) ∧
    (∀ (g : SavedObjectGraph) (cur : Nat) (done : List String),
       resolvePathAux g cur done [] = .ok cur) ∧
    (∀ (g : SavedObjectGraph) (cur : Nat) (done : List String) (nm : String)
       (rest : List String) (r : ChildEdge),
       (nodeChildren g cur).find? (fun c => c.local_name == nm) = some r →
       resolvePathAux g cur done (nm :: rest)
         = resolvePathAux g r.node_id (done ++ [nm]) rest) ∧
    (∀ (g : SavedObjectGraph) (cur : Nat) (done : List String) (nm : String)
       (rest : List String),
       (nodeChildren g cur).find? (fun c => c.local_name == nm) = none →
       resolvePathAux g cur done (nm :: rest)
         = .error (.unknownChild (joinDot (done ++ [nm])))) := by
  refine ⟨?_, ?_, ?_, ?_, ?_⟩
  · intro g path first rest hsplit hne
    simp [resolvePath, hsplit, hne]
  · intro g path rest hsplit
    simp [resolvePath, hsplit]
  · intro g cur done
    simp [resolvePathAux]
  · intro g cur done nm rest r hfind
    simp [resolvePathAux, findNodeChild, hfind]
  · intro g cur done nm rest hfind
    simp [resolvePathAux, findNodeChild, hfind]

/-- Counterexample for C8 as frozen: resolving `root.a` on a root with no
children raises the unknown-child failure carrying `root.a` — the path
including the missing segment — not the parent path `root`. -/
theorem C8_parent_path_counterexample :
    resolvePath rootOnlyGraph "root.a" = .error (.unknownChild "root.a") ∧
    resolvePath rootOnlyGraph "root.a" ≠ .error (.unknownChild "root") := by
  decide

/-- Witness for C8 (amended) at concrete inputs: a non-root first segment is
malformed, and a missing child fails carrying the full dotted prefix. -/
theorem C8_path_resolution_witness :
    resolvePath rootOnlyGraph "model.a" = .error (.malformedPath "model.a") ∧
    resolvePathAux rootOnlyGraph 0 ["root"] ["a"] = .error (.unknownChild "root.a") := by
  have h := C8_path_resolution_amended
  exact ⟨h.1 rootOnlyGraph "model.a" "model" ["a"] (by decide) (by decide),
         h.2.2.2.2 rootOnlyGraph 0 ["root"] "a" [] (by decide)⟩

/-- C9: a load with a non-empty filters argument against a SavedModel whose
single meta graph carries no object graph fails with the
filters-not-supported failure, producing no result. -/
theorem C9_v1_filters_rejected (mg : MetaGraphDef) (tags : Option (List String))
    (filters : List String)
    (hng : mg.hasObjectGraph = false) (hne : filters ≠ []) :
    loadInternal ⟨[mg]⟩ tags filters = .error .v1Filters := by
  simp [loadInternal, hng, hne]

/-- Witness for C9 at a concrete V1-style proto. -/
theorem C9_v1_filters_witness :
    loadInternal ⟨[⟨false, ["serve"]⟩]⟩ none ["root.layer"] = .error .v1Filters :=
  C9_v1_filters_rejected ⟨false, ["serve"]⟩ none ["root.layer"] rfl (by decide)

/-- C10: when checkpoint restoration is not skipped, the constructor tail
first restores the checkpoint and then, for every loaded node that is a
capturable resource, runs its initialization action after the restore, and
when not executing eagerly also adds the resulting op to the
table-initializers collection — all before the loader returns. -/
theorem C10_resource_init_after_restore (eager : Bool) (nodes : List (Option RTObject)) :
    ∃ rest, loaderInitTail false eager nodes = .restoreCheckpointEvent :: rest ∧
      (∀ i op, nodes[i]? = some (some (.capturableResource op)) →
         LoaderInitEvent.runInitOp i op ∈ rest ∧
         (eager = false →
            LoaderInitEvent.addToTableInitializers op ∈ rest ∧
            op ∈ tableInitializerOps rest)) := by
  refine ⟨nodes.enum.flatMap (fun e =>
      match e.2 with
      | some (.capturableResource op) =>
        LoaderInitEvent.runInitOp e.1 op ::
          (if eager then [] else [LoaderInitEvent.addToTableInitializers op])
      | _ => []), ?_, ?_⟩
  · simp [loaderInitTail]
  intro i op hi
  have hmem : (i, some (RTObject.capturableResource op)) ∈ nodes.enum := by
    rw [List.mk_mem_enum_iff_getElem?]
    exact hi
  constructor
  · refine List.mem_flatMap.mpr ⟨(i, some (.capturableResource op)), hmem, ?_⟩
    simp
  · intro heager
    subst heager
    have hadd : LoaderInitEvent.addToTableInitializers op ∈
        nodes.enum.flatMap (fun e =>
          match e.2 with
          | some (.capturableResource op) =>
            LoaderInitEvent.runInitOp e.1 op ::
              (if false then [] else [LoaderInitEvent.addToTableInitializers op])
          | _ => []) := by
      refine List.mem_flatMap.mpr ⟨(i, some (.capturableResource op)), hmem, ?_⟩
      simp
    refine ⟨hadd, ?_⟩
    exact List.mem_filterMap.mpr ⟨LoaderInitEvent.addToTableInitializers op, hadd, rfl⟩

/-- Witness for C10 on a concrete node list with one capturable resource. -/
theorem C10_resource_init_witness :
    loaderInitTail false false [some (.capturableResource 5), none, some (.tensorValue 1)]
      = [.restoreCheckpointEvent, .runInitOp 0 5, .addToTableInitializers 5] ∧
    LoaderInitEvent.runInitOp 0 5 ∈
      [LoaderInitEvent.runInitOp 0 5, LoaderInitEvent.addToTableInitializers 5] ∧
    (5 : Nat) ∈ tableInitializerOps
      [LoaderInitEvent.runInitOp 0 5, LoaderInitEvent.addToTableInitializers 5] := by
  have h := C10_resource_init_after_restore false
    [some (.capturableResource 5), none, some (.tensorValue 1)]
  obtain ⟨rest, hrest, hprop⟩ := h
  have hrest2 : rest = [LoaderInitEvent.runInitOp 0 5, LoaderInitEvent.addToTableInitializers 5] := by
    have : loaderInitTail false false [some (.capturableResource 5), none, some (.tensorValue 1)]
        = [.restoreCheckpointEvent, .runInitOp 0 5, .addToTableInitializers 5] := by decide
    rw [this] at hrest
    exact (List.cons.injEq _ _ _ _).mp hrest.symm |>.2
  obtain ⟨h1, h2⟩ := hprop 0 5 (by decide)
  obtain ⟨h3, h4⟩ := h2 rfl
  exact ⟨by decide, hrest2 ▸ h1, hrest2 ▸ h4⟩

end SavedModelLoad
